import Mathlib

/-!
Shallow embedding of the `heaparray` crate (array block layout, fat/thin
pointer arrays, and the naive reference-counted wrapper), together with
theorems settling the specification claims.

Source files embedded:
* `src/base/alloc_utils.rs` — layout arithmetic (`aligned_size`, `size_align`);
* `src/base/mem_block.rs`  — `MemBlock`: `memory_layout`, `new_init`, `dealloc`;
* `src/base/fat.rs`        — `FatPtrArray`: `get`, `get_mut`, `insert`, `with_label`, `len`;
* `src/base/thin.rs`       — `ThinPtrArray`: `index`, `get`, `insert`, `with_label`, `len`,
  and the atomic handle operations (`as_atomic`, `compare_exchange`);
* `src/naive_rc/generic.rs` — `RcArray`: `check_null`, `clone`, `to_null`, `len`,
  indexing, label access, `get`/`get_mut`/`insert`.

Machine integers (`usize`) are modelled as `Nat`; all index arithmetic in the
embedded operations stays far below `isize::MAX`, so wrapping is irrelevant.
A Rust function that can panic is modelled with `CallResult`, whose
`panicked` constructor carries the panic message.  Uninitialized memory is
modelled by `Option`: a block's element store maps an index to `none` when
the slot was never written (reading such a slot through the unchecked path
yields an undefined value, represented by that `none`).
-/

namespace Heaparray

/-- Result of calling a Rust function that may panic: either a normal return
value or a panic carrying the panic message. -/
inductive CallResult (β : Type) where
  | panicked (msg : String)
  | returned (val : β)
deriving DecidableEq

/-- Size and alignment of a Rust type, in bytes (`core::mem::size_of` /
`core::mem::align_of`).  A real Rust type always has `align` a power of two,
in particular positive. -/
structure TypeDesc where
  size : Nat
  align : Nat
deriving DecidableEq

/-- Embeds `alloc_utils::aligned_size::<T>(align)`: the size of `T` rounded up
to the given alignment.  The source computes `off_by = size % align` and
returns `size` when `off_by == 0`, otherwise `size + align - off_by`. -/
def aligned_size (size align : Nat) : Nat :=
  let off_by := size % align
  let adjusted_size := size + align - off_by
  if off_by = 0 then size else adjusted_size

/-- Embeds `alloc_utils::size_align::<T>()`: the `(size, align)` pair of a
type. -/
def size_align (t : TypeDesc) : Nat × Nat :=
  (t.size, t.align)

/-- Embeds `alloc_utils::size_align_array::<E>(len)`: the `(size, align)` pair
of `E` repeated `len` times (`size_of::<E>() * len`, `align_of::<E>()`). -/
def size_align_array (t : TypeDesc) (len : Nat) : Nat × Nat :=
  (t.size * len, t.align)

/-- Embeds `MemBlock::<E, L>::memory_layout(len)` from `src/base/mem_block.rs`:
size and alignment of the memory a block of `len` elements of type `et`
labelled by a value of type `lt` would need.  The source computes
`(l_size, l_align) = size_align::<L>()`, then
`(dsize, dalign) = size_align_array::<E>(len)`,
`calc = (aligned_size::<L>(dalign) + dsize, max(l_align, dalign))`, and
returns `calc` unless `len == 0`, in which case it returns
`(l_size, l_align)`. -/
def memory_layout (lt et : TypeDesc) (len : Nat) : Nat × Nat :=
  let ls := size_align lt
  let l_size := ls.1
  let l_align := ls.2
  let ds := size_align_array et len
  let dsize := ds.1
  let dalign := ds.2
  let calc_size := aligned_size l_size dalign + dsize
  let calc_align := max l_align dalign
  (if len = 0 then l_size else calc_size,
   if len = 0 then l_align else calc_align)

/-- Functional model of `MemBlock<E, L>` from `src/base/mem_block.rs`: one
label and an element store.  `mem idx = some v` means slot `idx` holds the
initialized value `v`; `mem idx = none` means the slot is uninitialized
(its bytes are undefined).  The `max_len` size assertion of `get_ptr` is not
modelled: every index the claims exercise is far below
`isize::MAX / size_of::<E>()`. -/
structure MemBlock (α L : Type) where
  label : L
  mem : Nat → Option α

namespace MemBlock

/-- Embeds the element-initialization loop of `MemBlock::new_init`: starting
at index `i` with `k` iterations left, call `f` on the current label and
index, write the produced element into the slot, and continue with the next
index (`for i in 0..len` ascending).  The Rust closure `FnMut(&mut L, usize)
-> E` is modelled in state-passing style as `f : L → Nat → L × α`. -/
def initFrom (f : L → Nat → L × α) : Nat → Nat → L → (Nat → Option α) → L × (Nat → Option α)
  | _, 0, lbl, mem => (lbl, mem)
  | i, k + 1, lbl, mem =>
    let r := f lbl i
    initFrom f (i + 1) k r.1 (fun j => if j = i then some r.2 else mem j)

/-- Embeds `MemBlock::new_init(label, len, func)`: allocate a fresh block
(all slots uninitialized), write the label, then run the initialization loop
over indices `0..len` in ascending order. -/
def new_init (label : L) (len : Nat) (f : L → Nat → L × α) : MemBlock α L :=
  let r := initFrom f 0 len label (fun _ => none)
  { label := r.1, mem := r.2 }

/-- Reading the slot at `idx` (the dereference of `MemBlock::get_ptr(idx)`);
`none` when the slot is uninitialized. -/
def read (b : MemBlock α L) (idx : Nat) : Option α :=
  b.mem idx

/-- Writing the slot at `idx` (a store through `MemBlock::get_ptr_mut(idx)`). -/
def write (b : MemBlock α L) (idx : Nat) (v : α) : MemBlock α L :=
  { b with mem := fun j => if j = idx then some v else b.mem j }

end MemBlock

/-- Observable events of block destruction, used to state ordering and
multiplicity of the destructor calls performed by `MemBlock::dealloc`. -/
inductive DestroyEvent where
  | dropLabel
  | dropElem (i : Nat)
  | free
deriving DecidableEq

/-- Embeds the element loop of `MemBlock::dealloc`: `for i in 0..len`
ascending, `drop_in_place(self.get_ptr_mut(i))`.  `dropElems i k` is the
event trace of the loop from index `i` with `k` iterations left. -/
def dropElems : Nat → Nat → List DestroyEvent
  | _, 0 => []
  | i, k + 1 => DestroyEvent.dropElem i :: dropElems (i + 1) k

/-- Embeds `MemBlock::dealloc(len)` as its trace of destruction events: drop
the label in place, then drop each element for `i in 0..len` ascending, then
`dealloc_lazy` frees the allocation.  The `max_len` and layout assertions are
not modelled (they hold for every length considered here). -/
def dealloc_trace (len : Nat) : List DestroyEvent :=
  DestroyEvent.dropLabel :: (dropElems 0 len ++ [DestroyEvent.free])

/-- Model of `FatPtrArray<E, L>` from `src/base/fat.rs`: a block reference
together with an externally stored length. -/
structure FatPtrArray (α L : Type) where
  data : MemBlock α L
  len : Nat

namespace FatPtrArray

/-- Embeds `FatPtrArray::with_label(label, len, func)`: builds the block with
`MemBlock::new_init` and stores `len` next to the pointer. -/
def with_label (label : L) (len : Nat) (f : L → Nat → L × α) : FatPtrArray α L :=
  { data := MemBlock.new_init label len f, len := len }

/-- Embeds `FatPtrArray::new(len, func)` (the `MakeArray` impl):
`with_label((), len, |_, idx| func(idx))`. -/
def new (len : Nat) (g : Nat → α) : FatPtrArray α Unit :=
  with_label () len (fun l idx => (l, g idx))

/-- Embeds `Container::len` for `FatPtrArray`: the length stored in the
handle. -/
def length (a : FatPtrArray α L) : Nat :=
  a.len

/-- Embeds `CopyMap::get` for `FatPtrArray` (`src/base/fat.rs`): `None` when
`key > self.len()`, otherwise `Some` of the dereferenced element pointer.
The outer `Option` is the Rust `Option<&E>`; the inner `Option α` is the
content of the addressed slot (`none` when the slot is uninitialized, i.e.
the returned reference points at undefined bytes).  Note the source's bound
check is `key > self.len()`, so `key == len` takes the `Some` branch. -/
def get (a : FatPtrArray α L) (key : Nat) : Option (Option α) :=
  if key > a.length then none else some (a.data.read key)

/-- Embeds `CopyMap::get_mut` for `FatPtrArray`; its body performs the same
bound check and addressing as `get`. -/
def get_mut (a : FatPtrArray α L) (key : Nat) : Option (Option α) :=
  if key > a.length then none else some (a.data.read key)

/-- Embeds `CopyMap::insert(key, value)` for `FatPtrArray`: `match
self.get_mut(key) { Some(slot) => Some(mem::replace(slot, value)), None =>
None }`.  Returns the Rust result (previous slot content) together with the
array after the call. -/
def insert (a : FatPtrArray α L) (key : Nat) (value : α) :
    Option (Option α) × FatPtrArray α L :=
  match a.get_mut key with
  | some old => (some old, { a with data := a.data.write key value })
  | none => (none, a)

/-- Embeds `LabelledArray::get_label` for `FatPtrArray`. -/
def get_label (a : FatPtrArray α L) : L :=
  a.data.label

end FatPtrArray

/-- Model of the private `LenLabel<L>` of `src/base/thin.rs`: the block label
of a thin array stores the length alongside the user label. -/
structure LenLabel (L : Type) where
  len : Nat
  label : L

/-- Model of `ThinPtrArray<E, L>` from `src/base/thin.rs`: a one-word handle
to a block whose label is `LenLabel<L>`. -/
structure ThinPtrArray (α L : Type) where
  data : MemBlock α (LenLabel L)

namespace ThinPtrArray

/-- Embeds `Container::len` for `ThinPtrArray`: `self.data.label.len`. -/
def length (a : ThinPtrArray α L) : Nat :=
  a.data.label.len

/-- Embeds `Index::index` for `ThinPtrArray` (default feature set): `assert!
(idx < self.len())`, then dereference `self.data.get(idx)`.  A failed
assertion is a panic; dereferencing an uninitialized slot yields an
undefined value, also modelled as a panic of the unchecked read. -/
def index (a : ThinPtrArray α L) (idx : Nat) : CallResult α :=
  if idx < a.length then
    match a.data.read idx with
    | some v => CallResult.returned v
    | none => CallResult.panicked "undefined read of uninitialized slot"
  else CallResult.panicked "assertion failed: idx < self.len()"

/-- Embeds `IndexMut::index_mut` for `ThinPtrArray`; its body performs the
same assertion and addressing as `index`. -/
def index_mut (a : ThinPtrArray α L) (idx : Nat) : CallResult α :=
  if idx < a.length then
    match a.data.read idx with
    | some v => CallResult.returned v
    | none => CallResult.panicked "undefined read of uninitialized slot"
  else CallResult.panicked "assertion failed: idx < self.len()"

/-- Embeds `CopyMap::get` for `ThinPtrArray`: `None` when `key > self.len()`,
otherwise `Some(&self[key])` — which runs the bracket-indexing assertion.
Note the bound check is `key > self.len()`, so `key == len` reaches the
indexing operator. -/
def get (a : ThinPtrArray α L) (key : Nat) : CallResult (Option α) :=
  if key > a.length then CallResult.returned none
  else
    match a.index key with
    | CallResult.returned v => CallResult.returned (some v)
    | CallResult.panicked msg => CallResult.panicked msg

/-- Embeds `CopyMap::get_mut` for `ThinPtrArray`; same check and addressing
as `get`, through `index_mut`. -/
def get_mut (a : ThinPtrArray α L) (key : Nat) : CallResult (Option α) :=
  if key > a.length then CallResult.returned none
  else
    match a.index_mut key with
    | CallResult.returned v => CallResult.returned (some v)
    | CallResult.panicked msg => CallResult.panicked msg

/-- Embeds `CopyMap::insert(key, value)` for `ThinPtrArray`: `None` when
`key > self.len()`, otherwise `Some(mem::replace(&mut self[key], value))` —
the `&mut self[key]` runs the bracket-indexing assertion.  Returns the Rust
result together with the array after the call. -/
def insert (a : ThinPtrArray α L) (key : Nat) (value : α) :
    CallResult (Option (Option α) × ThinPtrArray α L) :=
  if key > a.length then CallResult.returned (none, a)
  else
    match a.index_mut key with
    | CallResult.returned old =>
        CallResult.returned (some (some old), { data := a.data.write key value })
    | CallResult.panicked msg => CallResult.panicked msg

/-- Embeds `ThinPtrArray::with_label(label, len, func)`: builds the block
with label `LenLabel { len, label }` and an adapter closure that hands the
generator the `label` field of the block label. -/
def with_label (label : L) (len : Nat) (f : L → Nat → L × α) : ThinPtrArray α L :=
  { data := MemBlock.new_init (LenLabel.mk len label) len
      (fun lbl idx =>
        let r := f lbl.label idx
        (LenLabel.mk lbl.len r.1, r.2)) }

/-- Embeds `ThinPtrArray::new(len, func)` (the `MakeArray` impl):
`with_label((), len, |_, idx| func(idx))`. -/
def new (len : Nat) (g : Nat → α) : ThinPtrArray α Unit :=
  with_label () len (fun l idx => (l, g idx))

/-- Embeds `LabelledArray::get_label` for `ThinPtrArray`:
`&self.data.label.label`. -/
def get_label (a : ThinPtrArray α L) : L :=
  a.data.label.label

end ThinPtrArray

/-- Model of `core::sync::atomic::AtomicPtr<Block>`: a cell holding one
pointer value.  Pointer values are modelled by their numeric identity (the
block a handle refers to); two handles are "the same block" exactly when
these values are equal. -/
structure AtomicPtr where
  ptr : Nat
deriving DecidableEq

namespace AtomicPtr

/-- Embeds `AtomicPtr::new(p)`: a fresh atomic cell holding `p`. -/
def new (p : Nat) : AtomicPtr :=
  { ptr := p }

/-- Embeds `AtomicPtr::compare_exchange(current, new, success, failure)` on a
single cell (memory orderings do not change the sequential result): if the
cell holds `current` it is set to `new` and the call returns `Ok` of the
previous value, otherwise the cell is unchanged and the call returns `Err`
of the actual value.  Returns the cell after the call together with the
Rust result. -/
def compare_exchange (a : AtomicPtr) (current new : Nat) :
    AtomicPtr × Except Nat Nat :=
  if a.ptr = current then ({ ptr := new }, Except.ok a.ptr)
  else (a, Except.error a.ptr)

end AtomicPtr

namespace ThinPtrArray

/-- Embeds `ThinPtrArray::as_atomic` (`src/base/thin.rs`):
`AtomicPtr::new(self.get_ref())` — it builds a NEW atomic cell initialized
with a copy of the pointer currently stored in the handle; the cell is a
local temporary and does not alias the handle's own storage.  `slot` is the
pointer value held by `self`. -/
def as_atomic (slot : Nat) : AtomicPtr :=
  AtomicPtr.new slot

/-- Embeds `AtomicArrayRef::compare_exchange(current, new, success, failure)`
for `ThinPtrArray` (and `RcArray::compare_exchange`, which delegates to it):
the source calls `self.as_atomic().compare_exchange(current.to_ref(),
new.to_ref(), ...)`.  The compare-exchange therefore acts on the local
temporary built by `as_atomic`; the function never writes to `self`, which
is only borrowed immutably, so the first component of the result — the
pointer held by the slot after the call — is the unchanged `slot`.  The
second component is the Rust `Result` (by `from_raw`, the returned handle is
the pointer the cell reported). -/
def compare_exchange_slot (slot current new : Nat) : Nat × Except Nat Nat :=
  let tmp := as_atomic slot
  let r := tmp.compare_exchange current new
  (slot, r.2)

end ThinPtrArray

/-- State of the one shared block behind a family of reference-counted
handles (`src/naive_rc/generic.rs`).  `live` records whether the block is
still allocated, `count` the shared reference count stored in its label
(spec: "an atomic integer embedded as part of a Raw Block's label"),
`destroyed` how many times the block's full destruction has run, and
`len`/`label`/`mem` the array contents. -/
structure RcSt (α L : Type) where
  live : Bool
  count : Nat
  destroyed : Nat
  len : Nat
  label : L
  mem : Nat → Option α

/-- A reference-counted handle is either null (`RcArray::null_ref`) or a
pointer aliasing the shared block; `true` means the handle aliases the
block. -/
abbrev RcHandle : Type := Bool

namespace RcArray

/-- Embeds `RcArray::is_null`: a handle is null exactly when it does not
alias a block. -/
def is_null (h : RcHandle) : Bool :=
  !h

/-- Embeds `RcArray::check_null`: `assert!(!self.is_null(), "Null
dereference of naively reference-counted array")` — panics with that
message on a null handle, otherwise returns. -/
def check_null (h : RcHandle) : CallResult Unit :=
  if is_null h then
    CallResult.panicked "Null dereference of naively reference-counted array"
  else CallResult.returned ()

/-- Modelled from the spec (the `RefCounter` trait and its `ArcStruct`
implementation are not under `src/`): `increment` atomically adds one to the
shared count stored in the block's label.  Applied to the shared state. -/
def increment (s : RcSt α L) : RcSt α L :=
  { s with count := s.count + 1 }

/-- Modelled from the spec (the `RefCounter` trait and its `ArcStruct`
implementation are not under `src/`): `decrement` atomically subtracts one
from the shared count and returns the decremented value, as used by
`RcArray::to_null` (`let ref_count = self.data.get_label_mut().decrement()`). -/
def decrement (s : RcSt α L) : RcSt α L × Nat :=
  ({ s with count := s.count - 1 }, s.count - 1)

/-- Embeds `RcArray::clone` (`src/naive_rc/generic.rs`): if the handle is
null, return `Self::null_ref()`; otherwise increment the label's count and
return a bitwise copy of the handle (aliasing the same block, copying no
element).  Result: shared state after the call and the returned handle. -/
def clone (s : RcSt α L) (h : RcHandle) : RcSt α L × RcHandle :=
  if is_null h then (s, false)
  else (increment s, h)

/-- Embeds `RcArray::to_null` (`src/naive_rc/generic.rs`): if the handle is
null, return; otherwise decrement the count, and if the decremented value is
`0`, replace the handle by `null_ref` and drop the underlying array, which
runs the block's full destruction.  Result: shared state after the call and
the handle after the call. -/
def to_null (s : RcSt α L) (h : RcHandle) : RcSt α L × RcHandle :=
  if is_null h then (s, h)
  else
    let r := decrement s
    if r.2 = 0 then
      ({ r.1 with live := false, destroyed := r.1.destroyed + 1 }, false)
    else (r.1, h)

/-- Embeds `Container::len` for `RcArray`: `check_null` then the underlying
array's length. -/
def len (s : RcSt α L) (h : RcHandle) : CallResult Nat :=
  match check_null h with
  | CallResult.panicked msg => CallResult.panicked msg
  | CallResult.returned _ => CallResult.returned s.len

/-- Embeds `Index::index` for `RcArray`: `check_null` then index into the
underlying array (whose own bound assertion is also modelled). -/
def index (s : RcSt α L) (h : RcHandle) (idx : Nat) : CallResult α :=
  match check_null h with
  | CallResult.panicked msg => CallResult.panicked msg
  | CallResult.returned _ =>
    if idx < s.len then
      match s.mem idx with
      | some v => CallResult.returned v
      | none => CallResult.panicked "undefined read of uninitialized slot"
    else CallResult.panicked "assertion failed: idx < self.len()"

/-- Embeds `IndexMut::index_mut` for `RcArray`; same checks and addressing
as `index`. -/
def index_mut (s : RcSt α L) (h : RcHandle) (idx : Nat) : CallResult α :=
  index s h idx

/-- Embeds `LabelledArray::get_label` for `RcArray`: `check_null` then the
user part of the block label. -/
def get_label (s : RcSt α L) (h : RcHandle) : CallResult L :=
  match check_null h with
  | CallResult.panicked msg => CallResult.panicked msg
  | CallResult.returned _ => CallResult.returned s.label

/-- Embeds `LabelledArray::get_label_mut` for `RcArray`; same checks as
`get_label`. -/
def get_label_mut (s : RcSt α L) (h : RcHandle) : CallResult L :=
  get_label s h

/-- Embeds `CopyMap::get` for `RcArray`: `check_null`, then `None` when
`key > self.len()`, otherwise `Some(&self[key])`. -/
def get (s : RcSt α L) (h : RcHandle) (key : Nat) : CallResult (Option α) :=
  match check_null h with
  | CallResult.panicked msg => CallResult.panicked msg
  | CallResult.returned _ =>
    if key > s.len then CallResult.returned none
    else
      match index s h key with
      | CallResult.returned v => CallResult.returned (some v)
      | CallResult.panicked msg => CallResult.panicked msg

/-- Embeds `CopyMap::get_mut` for `RcArray`; same checks as `get`. -/
def get_mut (s : RcSt α L) (h : RcHandle) (key : Nat) : CallResult (Option α) :=
  get s h key

/-- Embeds `CopyMap::insert` for `RcArray`: `check_null`, then `None` when
`key > self.len()`, otherwise replace the element and return the previous
one.  Only the call result is needed for the null-handle claim. -/
def insert (s : RcSt α L) (h : RcHandle) (key : Nat) (value : α) :
    CallResult (Option α × RcSt α L) :=
  match check_null h with
  | CallResult.panicked msg => CallResult.panicked msg
  | CallResult.returned _ =>
    if key > s.len then CallResult.returned (none, s)
    else
      match index s h key with
      | CallResult.returned old =>
          CallResult.returned (some old,
            { s with mem := fun j => if j = key then some value else s.mem j })
      | CallResult.panicked msg => CallResult.panicked msg

/-- Dropping `n` handles that alias the shared block, one `to_null` after
another (each handle is dropped once, as `Drop for RcArray` does). -/
def dropHandles (s : RcSt α L) : Nat → RcSt α L
  | 0 => s
  | k + 1 => dropHandles (to_null s true).1 k

end RcArray

/-- Specification-side description of the generator's label threading: the
label state after the generator has been called on indices `0, 1, …, n-1` in
ascending order, starting from the initial label. -/
def labelAfter (f : L → Nat → L × α) (lbl : L) : Nat → L
  | 0 => lbl
  | n + 1 => (f (labelAfter f lbl n) n).1

/-- Specification-side description of the element the generator produces for
index `i`: the value of the single call `f` receives at index `i`, whose
label argument reflects all calls at indices below `i`. -/
def producedAt (f : L → Nat → L × α) (lbl : L) (i : Nat) : α :=
  (f (labelAfter f lbl i) i).2

lemma initFrom_fst (f : L → Nat → L × α) (lbl0 : L) :
    ∀ (k i : Nat) (mem : Nat → Option α),
      (MemBlock.initFrom f i k (labelAfter f lbl0 i) mem).1 =
        labelAfter f lbl0 (i + k) := by
  intro k
  induction k with
  | zero => intro i mem; simp [MemBlock.initFrom]
  | succ k ih =>
    intro i mem
    have h1 : (f (labelAfter f lbl0 i) i).1 = labelAfter f lbl0 (i + 1) := rfl
    rw [MemBlock.initFrom, h1, ih (i + 1)]
    congr 1
    omega

lemma initFrom_snd (f : L → Nat → L × α) (lbl0 : L) :
    ∀ (k i : Nat) (mem : Nat → Option α) (j : Nat),
      (MemBlock.initFrom f i k (labelAfter f lbl0 i) mem).2 j =
        if i ≤ j ∧ j < i + k then some (producedAt f lbl0 j) else mem j := by
  intro k
  induction k with
  | zero =>
    intro i mem j
    have h0 : ¬ (i ≤ j ∧ j < i) := by omega
    simp [MemBlock.initFrom, h0]
  | succ k ih =>
    intro i mem j
    have h1 : (f (labelAfter f lbl0 i) i).1 = labelAfter f lbl0 (i + 1) := rfl
    rw [MemBlock.initFrom, h1, ih (i + 1)]
    by_cases hj : j = i
    · subst hj
      have hc1 : ¬ (j + 1 ≤ j ∧ j < j + 1 + k) := by omega
      have hc2 : j ≤ j ∧ j < j + (k + 1) := by omega
      simp [hc1, hc2, producedAt]
    · by_cases hc : i + 1 ≤ j ∧ j < i + 1 + k
      · have hc2 : i ≤ j ∧ j < i + (k + 1) := by omega
        simp [hc, hc2]
      · have hc2 : ¬ (i ≤ j ∧ j < i + (k + 1)) := by omega
        simp [hc, hc2, hj]

lemma new_init_label (label : L) (len : Nat) (f : L → Nat → L × α) :
    (MemBlock.new_init label len f).label = labelAfter f label len := by
  have h := initFrom_fst f label len 0 (fun _ => none)
  simpa [MemBlock.new_init] using h

lemma new_init_mem (label : L) (len : Nat) (f : L → Nat → L × α) (j : Nat) :
    (MemBlock.new_init label len f).mem j =
      if j < len then some (producedAt f label j) else none := by
  have h := initFrom_snd f label len 0 (fun _ => none) j
  simp only [Nat.zero_add, Nat.zero_le, true_and] at h
  simpa [MemBlock.new_init] using h

/-- The label adapter of `ThinPtrArray::with_label` threads exactly the user
label: after any number of generator calls, the block label is still
`LenLabel` of the original length and of the user-level threaded label. -/
lemma thin_labelAfter (f : L → Nat → L × α) (len : Nat) (label : L) :
    ∀ n, labelAfter
        (fun (lbl : LenLabel L) idx =>
          let r := f lbl.label idx
          (LenLabel.mk lbl.len r.1, r.2))
        (LenLabel.mk len label) n =
      LenLabel.mk len (labelAfter f label n) := by
  intro n
  induction n with
  | zero => rfl
  | succ n ih => simp [labelAfter, ih]

lemma thin_producedAt (f : L → Nat → L × α) (len : Nat) (label : L) (i : Nat) :
    producedAt
        (fun (lbl : LenLabel L) idx =>
          let r := f lbl.label idx
          (LenLabel.mk lbl.len r.1, r.2))
        (LenLabel.mk len label) i = producedAt f label i := by
  simp [producedAt, thin_labelAfter]

lemma thin_with_label_length (f : L → Nat → L × α) (len : Nat) (label : L) :
    (ThinPtrArray.with_label label len f).length = len := by
  simp [ThinPtrArray.with_label, ThinPtrArray.length, new_init_label, thin_labelAfter]

/-- The element-destruction loop of `dealloc` visits exactly the indices
`s, s+1, …, s+k-1`, in that order. -/
lemma dropElems_eq : ∀ (k s : Nat),
    dropElems s k = (List.range' s k).map DestroyEvent.dropElem := by
  intro k
  induction k with
  | zero => intro s; rfl
  | succ k ih => intro s; simp [dropElems, List.range'_succ, ih]

lemma dropElems_count_elem (i : Nat) : ∀ (k s : Nat),
    (dropElems s k).count (DestroyEvent.dropElem i) =
      if s ≤ i ∧ i < s + k then 1 else 0 := by
  intro k
  induction k with
  | zero =>
    intro s
    have h0 : ¬ (s ≤ i ∧ i < s) := by omega
    simp [dropElems, h0]
  | succ k ih =>
    intro s
    rw [dropElems, List.count_cons, ih (s + 1)]
    by_cases hi : s = i
    · subst hi
      have h1 : ¬ (s + 1 ≤ s ∧ s < s + 1 + k) := by omega
      have h2 : s ≤ s ∧ s < s + (k + 1) := by omega
      simp [h1, h2]
    · have h3 : (s + 1 ≤ i ∧ i < s + 1 + k) ↔ (s ≤ i ∧ i < s + (k + 1)) := by omega
      simp [hi, h3]

lemma dropElems_count_label : ∀ (k s : Nat),
    (dropElems s k).count DestroyEvent.dropLabel = 0 := by
  intro k
  induction k with
  | zero => intro s; rfl
  | succ k ih => intro s; simp [dropElems, List.count_cons, ih (s + 1)]

/-- `aligned_size` is exactly rounding up to the next multiple of the
alignment. -/
lemma aligned_size_eq (s a : Nat) (ha : 0 < a) :
    aligned_size s a = (s + a - 1) / a * a := by
  simp only [aligned_size]
  by_cases h : s % a = 0
  · rw [if_pos h]
    obtain ⟨q, hq⟩ := Nat.dvd_of_mod_eq_zero h
    subst hq
    have h1 : a * q + a - 1 = (a - 1) + a * q := by omega
    rw [h1, Nat.add_mul_div_left _ _ ha, Nat.div_eq_of_lt (by omega)]
    ring
  · rw [if_neg h]
    have hmod : s % a < a := Nat.mod_lt _ ha
    have hdm : a * (s / a) + s % a = s := Nat.div_add_mod s a
    have hexp : a * (s / a + 1) = a * (s / a) + a := by ring
    have h1 : s + a - 1 = (s % a - 1) + a * (s / a + 1) := by omega
    rw [h1, Nat.add_mul_div_left _ _ ha, Nat.div_eq_of_lt (by omega)]
    have hexp2 : (0 + (s / a + 1)) * a = a * (s / a) + a := by ring
    rw [hexp2]
    omega

/-- Dropping, one by one, as many aliasing handles as the count records
destroys the block exactly once — on the last drop, never before. -/
lemma dropHandles_destroyed : ∀ (n : Nat) (s : RcSt α L),
    s.count = n → s.destroyed = 0 → 0 < n →
      (RcArray.dropHandles s n).destroyed = 1 ∧
      ∀ k < n, (RcArray.dropHandles s k).destroyed = 0 := by
  intro n
  induction n with
  | zero => intro s _ _ hp; omega
  | succ n ih =>
    intro s hc hd _
    by_cases hn : n = 0
    · subst hn
      constructor
      · show (RcArray.dropHandles (RcArray.to_null s true).1 0).destroyed = 1
        simp [RcArray.dropHandles, RcArray.to_null, RcArray.decrement,
          RcArray.is_null, hc, hd]
      · intro k hk
        have hk0 : k = 0 := by omega
        subst hk0
        simpa [RcArray.dropHandles] using hd
    · have hstep : (RcArray.to_null s true).1 = { s with count := s.count - 1 } := by
        have hne : ¬ (s.count - 1 = 0) := by omega
        simp [RcArray.to_null, RcArray.decrement, RcArray.is_null, hne]
      have hcount : ({ s with count := s.count - 1 } : RcSt α L).count = n := by
        simp; omega
      have hdest : ({ s with count := s.count - 1 } : RcSt α L).destroyed = 0 := hd
      have hmain := ih _ hcount hdest (by omega)
      constructor
      · show (RcArray.dropHandles (RcArray.to_null s true).1 n).destroyed = 1
        rw [hstep]
        exact hmain.1
      · intro k hk
        cases k with
        | zero => simpa [RcArray.dropHandles] using hd
        | succ k =>
          show (RcArray.dropHandles (RcArray.to_null s true).1 k).destroyed = 0
          rw [hstep]
          exact hmain.2 k (by omega)

/-- C4: an array freshly constructed with length `len` and a generator
satisfies `length() == len`, and `get(i)` returns the element the generator
produced for index `i`, for every `i < len` — for both `FatPtrArray` and
`ThinPtrArray`.  The generator is the general stateful `FnMut(&mut L, usize)
-> E` form, and `producedAt f label i` is the value of its (single) call at
index `i`. -/
theorem claim_C4 (label : L) (len : Nat) (f : L → Nat → L × α) (i : Nat)
    (hi : i < len) :
    (FatPtrArray.with_label label len f).length = len ∧
    (FatPtrArray.with_label label len f).get i =
      some (some (producedAt f label i)) ∧
    (ThinPtrArray.with_label label len f).length = len ∧
    (ThinPtrArray.with_label label len f).get i =
      CallResult.returned (some (producedAt f label i)) := by
  have hlen := thin_with_label_length f len label
  refine ⟨rfl, ?_, hlen, ?_⟩
  · have h1 : ¬ i > len := by omega
    simp [FatPtrArray.get, FatPtrArray.with_label, FatPtrArray.length,
      MemBlock.read, h1, new_init_mem, hi]
  · have h1 : ¬ i > len := by omega
    have hread : (ThinPtrArray.with_label label len f).data.read i =
        some (producedAt f label i) := by
      simp [ThinPtrArray.with_label, MemBlock.read, new_init_mem, hi,
        thin_producedAt]
    simp [ThinPtrArray.get, ThinPtrArray.index, hlen, h1, hi, hread]

theorem claim_C4_witness :
    1 < 2 ∧
    (FatPtrArray.with_label (0 : Nat) 2 (fun l i => (l + i, l * 10 + i))).get 1 =
      some (some 1) ∧
    (ThinPtrArray.with_label (0 : Nat) 2 (fun l i => (l + i, l * 10 + i))).get 1 =
      CallResult.returned (some 1) := by
  refine ⟨by decide, ?_, ?_⟩
  · exact (claim_C4 (0 : Nat) 2 (fun l i => (l + i, l * 10 + i)) 1 (by decide)).2.1
  · exact (claim_C4 (0 : Nat) 2 (fun l i => (l + i, l * 10 + i)) 1 (by decide)).2.2.2

/-- C8: during construction with a generator, the label is initialized
first, and the generator is invoked exactly once per index for `i` in
`0..len` in strictly ascending order, each call receiving the label as
aggregated by all earlier calls, its result written into slot `i` before the
next call.  Formally: the block built by `MemBlock::new_init` has exactly
the label obtained by threading the generator through indices `0, …, len-1`
in order (`labelAfter`), and slot `j < len` holds exactly the value of the
single generator call at index `j` whose label argument reflects the calls
at indices below `j` (`producedAt`). -/
theorem claim_C8 (label : L) (len : Nat) (f : L → Nat → L × α) :
    (MemBlock.new_init label len f).label = labelAfter f label len ∧
    ∀ j, (MemBlock.new_init label len f).mem j =
      if j < len then some (producedAt f label j) else none :=
  ⟨new_init_label label len f, fun j => new_init_mem label len f j⟩

/-- C7: full destruction of a block of length `len` runs the label's
destructor first, then each element's destructor exactly once for indices
`0..len` in ascending order, then frees the memory: the `dealloc` event
trace is exactly `dropLabel`, then `dropElem 0, …, dropElem (len-1)`, then
`free`; it contains exactly one label destruction and exactly one element
destruction for each `i < len` (none for `i ≥ len`). -/
theorem claim_C7 (len : Nat) :
    dealloc_trace len =
      DestroyEvent.dropLabel ::
        ((List.range len).map DestroyEvent.dropElem ++ [DestroyEvent.free]) ∧
    (dealloc_trace len).count DestroyEvent.dropLabel = 1 ∧
    ∀ i, (dealloc_trace len).count (DestroyEvent.dropElem i) =
      if i < len then 1 else 0 := by
  refine ⟨?_, ?_, ?_⟩
  · simp [dealloc_trace, dropElems_eq, List.range_eq_range']
  · simp [dealloc_trace, List.count_cons, List.count_append,
      dropElems_count_label]
  · intro i
    have h := dropElems_count_elem i len 0
    simp only [Nat.zero_add, Nat.zero_le, true_and] at h
    simp [dealloc_trace, List.count_cons, List.count_append, h]

/-- C9 counterexample: the claim states the computed alignment is
`max(align(L), align(E))` for every `N`, but for `N == 0` the source returns
`(l_size, l_align)` — the label's alignment alone.  With a one-byte label
(`u8`: size 1, align 1) and an eight-byte element (`u64`: size 8, align 8)
and `N = 0`, the computed layout is `(1, 1)`, whose alignment differs from
`max 1 8 = 8`. -/
theorem claim_C9_counterexample :
    memory_layout ⟨1, 1⟩ ⟨8, 8⟩ 0 = (1, 1) ∧
    ¬ ((memory_layout ⟨1, 1⟩ ⟨8, 8⟩ 0).2 = max 1 8) := by
  decide

/-- C9 as amended: for `N > 0` the layout is `align = max(align(L),
align(E))` and `size = align_up(size(L), align(E)) + size(E) * N` (with
`align_up` written as rounding up to the next multiple); for `N == 0` the
layout is `(size(L), align(L))` — size and alignment of the label alone. -/
theorem claim_C9_amended (lt et : TypeDesc) (len : Nat) (ha : 0 < et.align) :
    (0 < len →
      memory_layout lt et len =
        ((lt.size + et.align - 1) / et.align * et.align + et.size * len,
         max lt.align et.align)) ∧
    (len = 0 → memory_layout lt et len = (lt.size, lt.align)) := by
  constructor
  · intro hl
    have hne : ¬ len = 0 := by omega
    simp [memory_layout, size_align, size_align_array, hne,
      aligned_size_eq _ _ ha]
  · intro hl
    subst hl
    simp [memory_layout, size_align]

theorem claim_C9_witness :
    0 < (8 : Nat) ∧ memory_layout ⟨4, 4⟩ ⟨8, 8⟩ 3 = (32, 8) := by
  refine ⟨by decide, ?_⟩
  exact (claim_C9_amended ⟨4, 4⟩ ⟨8, 8⟩ 3 (by decide)).1 (by decide)

/-- C1, evaluated at the failing input: the claim says `insert(idx, value)`
with `idx >= length()` returns an absent result and leaves the array
unmodified, but the source's bound check is `key > self.len()`, so
`idx == len` is accepted.  On a freshly built length-1 array:
`FatPtrArray::insert(1, 99)` returns a present result (the content of the
uninitialized slot one past the end) and writes `99` out of bounds, and
`ThinPtrArray::insert(1, 99)` passes the check and then panics in the
bracket-indexing assertion — neither does what the claim states. -/
theorem claim_C1_eval :
    ((FatPtrArray.new 1 (fun i => (i : Nat))).insert 1 99).1 = some none ∧
    ((FatPtrArray.new 1 (fun i => (i : Nat))).insert 1 99).2.data.read 1 =
      some 99 ∧
    (ThinPtrArray.new 1 (fun i => (i : Nat))).insert 1 99 =
      CallResult.panicked "assertion failed: idx < self.len()" := by
  refine ⟨by decide, by decide, rfl⟩

/-- C2, evaluated at the failing input: the claim says the checked `get` and
`get_mut` return `None` exactly when `idx >= length()`, but the source's
check is `key > self.len()`.  On a freshly built length-1 array:
`FatPtrArray::get(1)` and `get_mut(1)` return a present result (a reference
one past the end, to uninitialized memory) instead of `None`, and
`ThinPtrArray::get(1)` panics in the bracket-indexing assertion instead of
returning `None`; index `2` is rejected as the claim expects. -/
theorem claim_C2_eval :
    (FatPtrArray.new 1 (fun i => (i : Nat))).get 1 = some none ∧
    (FatPtrArray.new 1 (fun i => (i : Nat))).get_mut 1 = some none ∧
    (FatPtrArray.new 1 (fun i => (i : Nat))).get 2 = none ∧
    (ThinPtrArray.new 1 (fun i => (i : Nat))).get 1 =
      CallResult.panicked "assertion failed: idx < self.len()" ∧
    (ThinPtrArray.new 1 (fun i => (i : Nat))).get 2 =
      CallResult.returned none := by
  decide

/-- C3, evaluated at the failing input: the claim says a successful
`compare_exchange(current, new)` leaves `new` in the slot, but
`as_atomic()` wraps a copy of the slot's pointer in a fresh temporary
`AtomicPtr`, so the compare-exchange mutates only that temporary.  With the
slot holding pointer `1`, `compare_exchange(1, 2)` reports success and
returns the old occupant, yet the slot still holds `1`, not `2`; a failing
call (`compare_exchange(3, 2)`) returns the actual occupant with the slot
unchanged. -/
theorem claim_C3_eval :
    ThinPtrArray.compare_exchange_slot 1 1 2 = (1, Except.ok 1) ∧
    (ThinPtrArray.compare_exchange_slot 1 1 2).1 ≠ 2 ∧
    ThinPtrArray.compare_exchange_slot 1 3 2 = (1, Except.error 1) := by
  refine ⟨rfl, by decide, rfl⟩

/-- C5: the reference-counted handle obeys the state machine — clone of a
null handle returns a null handle without touching the state; clone of a
non-null handle increments the shared count by one and returns a handle
aliasing the same block, with contents, label, length, liveness and
destruction count unchanged (no element copied); `to_null` of a null handle
is a no-op; `to_null` of a non-null handle decrements the count, and exactly
when the decremented value is `0` the block's full destruction runs and the
handle becomes null; dropping all `n` aliasing handles destroys the block
exactly once, on the last drop and never before. -/
theorem claim_C5 (s : RcSt α L) (n : Nat)
    (hc : s.count = n) (hp : 0 < n) (hd : s.destroyed = 0) :
    RcArray.clone s false = (s, false) ∧
    (RcArray.clone s true).1.count = s.count + 1 ∧
    (RcArray.clone s true).2 = true ∧
    (RcArray.clone s true).1.mem = s.mem ∧
    (RcArray.clone s true).1.label = s.label ∧
    (RcArray.clone s true).1.len = s.len ∧
    (RcArray.clone s true).1.live = s.live ∧
    (RcArray.clone s true).1.destroyed = s.destroyed ∧
    RcArray.to_null s false = (s, false) ∧
    (RcArray.to_null s true).1.count = s.count - 1 ∧
    ((RcArray.to_null s true).1.destroyed = s.destroyed + 1 ↔ s.count - 1 = 0) ∧
    ((RcArray.to_null s true).2 = false ↔ s.count - 1 = 0) ∧
    (RcArray.dropHandles s n).destroyed = 1 ∧
    ∀ k < n, (RcArray.dropHandles s k).destroyed = 0 := by
  have hdrop := dropHandles_destroyed n s hc hd hp
  refine ⟨?_, ?_, ?_, ?_, ?_, ?_, ?_, ?_, ?_, ?_, ?_, ?_, hdrop.1, hdrop.2⟩
  · simp [RcArray.clone, RcArray.is_null]
  · simp [RcArray.clone, RcArray.is_null, RcArray.increment]
  · simp [RcArray.clone, RcArray.is_null]
  · simp [RcArray.clone, RcArray.is_null, RcArray.increment]
  · simp [RcArray.clone, RcArray.is_null, RcArray.increment]
  · simp [RcArray.clone, RcArray.is_null, RcArray.increment]
  · simp [RcArray.clone, RcArray.is_null, RcArray.increment]
  · simp [RcArray.clone, RcArray.is_null, RcArray.increment]
  · simp [RcArray.to_null, RcArray.is_null]
  · by_cases hz : s.count - 1 = 0 <;>
      simp [RcArray.to_null, RcArray.is_null, RcArray.decrement, hz]
  · by_cases hz : s.count - 1 = 0 <;>
      simp [RcArray.to_null, RcArray.is_null, RcArray.decrement, hz]
  · by_cases hz : s.count - 1 = 0 <;>
      simp [RcArray.to_null, RcArray.is_null, RcArray.decrement, hz]

theorem claim_C5_witness :
    (RcArray.dropHandles
      ({ live := true, count := 2, destroyed := 0, len := 1, label := (),
         mem := fun _ => none } : RcSt Nat Unit) 2).destroyed = 1 ∧
    (RcArray.dropHandles
      ({ live := true, count := 2, destroyed := 0, len := 1, label := (),
         mem := fun _ => none } : RcSt Nat Unit) 1).destroyed = 0 ∧
    (RcArray.clone
      ({ live := true, count := 2, destroyed := 0, len := 1, label := (),
         mem := fun _ => none } : RcSt Nat Unit) true).1.count = 3 := by
  obtain ⟨h1, h2, h3, h4, h5, h6, h7, h8, h9, h10, h11, h12, h13, h14⟩ :=
    claim_C5
      ({ live := true, count := 2, destroyed := 0, len := 1, label := (),
         mem := fun _ => none } : RcSt Nat Unit) 2 rfl (by decide) rfl
  exact ⟨h13, h14 1 (by decide), h2⟩

/-- C6: every indexing, length, or label operation on a reference-counted
handle in the null state fails with the checked `check_null` assertion — a
panic whose message names the null dereference — rather than returning a
value: `len`, `index`, `index_mut`, `get_label`, `get_label_mut`, `get`,
`get_mut` and `insert` all panic with "Null dereference of naively
reference-counted array". -/
theorem claim_C6 (s : RcSt α L) (h : RcHandle) (idx key : Nat) (v : α)
    (hn : RcArray.is_null h = true) :
    RcArray.len s h =
      CallResult.panicked "Null dereference of naively reference-counted array" ∧
    RcArray.index s h idx =
      CallResult.panicked "Null dereference of naively reference-counted array" ∧
    RcArray.index_mut s h idx =
      CallResult.panicked "Null dereference of naively reference-counted array" ∧
    RcArray.get_label s h =
      CallResult.panicked "Null dereference of naively reference-counted array" ∧
    RcArray.get_label_mut s h =
      CallResult.panicked "Null dereference of naively reference-counted array" ∧
    RcArray.get s h key =
      CallResult.panicked "Null dereference of naively reference-counted array" ∧
    RcArray.get_mut s h key =
      CallResult.panicked "Null dereference of naively reference-counted array" ∧
    RcArray.insert s h key v =
      CallResult.panicked "Null dereference of naively reference-counted array" := by
  have hcheck : RcArray.check_null h =
      CallResult.panicked "Null dereference of naively reference-counted array" := by
    simp [RcArray.check_null, hn]
  refine ⟨?_, ?_, ?_, ?_, ?_, ?_, ?_, ?_⟩ <;>
    simp [RcArray.len, RcArray.index, RcArray.index_mut, RcArray.get_label,
      RcArray.get_label_mut, RcArray.get, RcArray.get_mut, RcArray.insert,
      hcheck]

theorem claim_C6_witness :
    RcArray.is_null false = true ∧
    RcArray.len
      ({ live := true, count := 1, destroyed := 0, len := 1, label := (),
         mem := fun _ => none } : RcSt Nat Unit) false =
      CallResult.panicked "Null dereference of naively reference-counted array" := by
  refine ⟨by decide, ?_⟩
  exact (claim_C6
    ({ live := true, count := 1, destroyed := 0, len := 1, label := (),
       mem := fun _ => none } : RcSt Nat Unit) false 0 0 (0 : Nat) (by decide)).1

/-- C10: bracket indexing on a `ThinPtrArray` is strictly bounds-checked
under the default feature set: for every index `idx >= len` (including
`idx == len`), both `Index::index` and `IndexMut::index_mut` fail in the
`assert!(idx < self.len())` assertion — a panic raised before any element
address is computed. -/
theorem claim_C10 (a : ThinPtrArray α L) (idx : Nat) (h : a.length ≤ idx) :
    a.index idx = CallResult.panicked "assertion failed: idx < self.len()" ∧
    a.index_mut idx =
      CallResult.panicked "assertion failed: idx < self.len()" := by
  have h1 : ¬ idx < a.length := by omega
  exact ⟨by simp [ThinPtrArray.index, h1], by simp [ThinPtrArray.index_mut, h1]⟩

theorem claim_C10_witness :
    (ThinPtrArray.new 1 (fun i => (i : Nat))).length ≤ 1 ∧
    (ThinPtrArray.new 1 (fun i => (i : Nat))).index 1 =
      CallResult.panicked "assertion failed: idx < self.len()" := by
  refine ⟨by decide, ?_⟩
  exact (claim_C10 (ThinPtrArray.new 1 (fun i => (i : Nat))) 1 (by decide)).1

end Heaparray
